import Mathlib

/-!
Verification development for the stock-signal repository.

Shallow embedding of `src/indicators.py` and `src/decision.py` over exact
rationals (`ℚ` stands in for Python 64-bit floats; `float` arithmetic is
modelled exactly).  A pandas `DataFrame` of candles is modelled as a
`List Candle`; label (timestamp) based indexing in the source is modelled
positionally, which agrees with the source under the data-model invariant
that timestamps are unique (after `df.sort_index()` the label order is the
positional order).
-/

/-- One OHLCV candle (`src/decision.py` consumes dicts with keys
`timestamp/open/high/low/close/volume`).  The field `opn` is the `open`
price (`open` is a Lean keyword). -/
structure Candle where
  timestamp : ℕ
  opn : ℚ
  high : ℚ
  low : ℚ
  close : ℚ
  volume : ℚ
deriving Repr, DecidableEq, Inhabited

/-- The signal record produced by
`UpperSectionStrategy._generate_trade_signal` and augmented by `analyze`
(fields `pattern`, `peak_index`, `interval`).  `tp_frac`/`sl_frac` model
the source's `tp_ratio`/`sl_ratio` dict entries. -/
structure Signal where
  symbol : String
  signal : String
  decision : String
  entry_price : ℚ
  current_price : ℚ
  current_low : ℚ
  current_high : ℚ
  tp_price : ℚ
  sl_price : ℚ
  tp_frac : ℚ
  sl_frac : ℚ
  ema_period : ℕ
  risk_reward : ℚ
  volume : ℤ
  price_from_peak : ℚ
  peak_high : ℚ
  pattern : String
  peak_index : ℕ
  interval : String
deriving Repr, DecidableEq

/-- Python's `round(x)` (banker's rounding: nearest integer, ties to the
even integer), on exact rationals. -/
def pyRound (x : ℚ) : ℤ :=
  let f : ℤ := ⌊x⌋
  let frac : ℚ := x - f
  if frac < 1/2 then f
  else if 1/2 < frac then f + 1
  else if f % 2 = 0 then f else f + 1

/-- Python's `round(x, 2)`: round to 2 decimal places (display precision,
applied by the source only when building the output dict). -/
def round2 (x : ℚ) : ℚ := (pyRound (x * 100) : ℚ) / 100

/-- Python's `int(x)` on a non-negative/any real: truncation toward zero. -/
def pyInt (x : ℚ) : ℤ := if 0 ≤ x then ⌊x⌋ else -⌊-x⌋

/-- The EMA recurrence loop of `compute_ema_series`
(`src/indicators.py` lines 15-19): starting from the previous value
`prev`, each element `p` contributes `p*alpha + prev*(1-alpha)`. -/
def emaRec (alpha : ℚ) (prev : ℚ) : List ℚ → List ℚ
  | [] => []
  | p :: ps =>
      let e := p * alpha + prev * (1 - alpha)
      e :: emaRec alpha e ps

/-- `compute_ema_series(prices, period)` (`src/indicators.py` lines 4-20)
for a positive `period` (the argument is a `Nat` here; the non-positive
`period` paths of the Python function, which always raise, are modelled
separately by `compute_ema_series_run`):
`[None]*(period-1)`, then the arithmetic mean of the first `period`
prices, then the recurrence over the remaining prices. -/
def compute_ema_series (prices : List ℚ) (period : ℕ) : List (Option ℚ) :=
  if prices.length < period then List.replicate prices.length none
  else
    let alpha : ℚ := 2 / (period + 1)
    let initial_sma : ℚ := (prices.take period).sum / period
    List.replicate (period - 1) none ++
      (some initial_sma :: (emaRec alpha initial_sma (prices.drop period)).map some)

/-- The exception paths of `compute_ema_series` for out-of-contract
periods. -/
inductive EmaErr where
  | zeroDivision   -- `alpha = 2.0 / (period + 1)` with `period = -1`
  | indexError     -- `prices.iloc[i]` with `i < -len(prices)` in the loop
  | lengthMismatch -- `pd.Series(ema_values, index=prices.index)` with
                   -- `len(ema_values) ≠ len(prices)`
deriving Repr, DecidableEq

/-- `compute_ema_series(prices, period)` with an arbitrary integer
`period`, modelling the exceptions the Python function raises.
Tracing the source for `period ≤ 0` (the early-return branch
`len(prices) < period` is then unreachable):
`period = -1` divides by zero computing `alpha`;
`period < -len(prices)` makes the loop's first access
`prices.iloc[period]` raise `IndexError`;
otherwise `ema_values` has `max(period-1,0) + 1 + max(len-period,0)`
entries, which differs from `len(prices)` exactly when `period ≤ 0`, so
`pd.Series(ema_values, index=prices.index)` raises a length-mismatch
`ValueError`.  For `period ≥ 1` no exception occurs and the result is
`compute_ema_series`. -/
def compute_ema_series_run (prices : List ℚ) (period : ℤ) :
    Except EmaErr (List (Option ℚ)) :=
  if (prices.length : ℤ) < period then
    .ok (List.replicate prices.length none)
  else if period + 1 = 0 then
    .error .zeroDivision
  else if period < -(prices.length : ℤ) then
    .error .indexError
  else if (max (period - 1) 0) + 1 + (max ((prices.length : ℤ) - period) 0)
      ≠ (prices.length : ℤ) then
    .error .lengthMismatch
  else
    .ok (compute_ema_series prices period.toNat)

/-- Positions of the elements of `l` satisfying `p`, in order
(models `series[series == v].index` of pandas, positionally). -/
def idxsWhere (p : ℚ → Bool) : List ℚ → List ℕ
  | [] => []
  | x :: xs =>
      (if p x then [0] else []) ++ (idxsWhere p xs).map (· + 1)

/-- `UpperSectionStrategy` state (`src/decision.py` lines 16-18):
the TP/SL ratios fixed at construction.  `tp_frac`/`sl_frac` model
`self.tp_ratio`/`self.sl_ratio`. -/
structure UpperSectionStrategy where
  tp_frac : ℚ
  sl_frac : ℚ
deriving Repr, DecidableEq

/-- `UpperSectionStrategy.__init__`: `TP_RATIO if TP_RATIO else 0.10`,
`SL_RATIO if SL_RATIO else 0.05` (a zero config value falls back to the
default). -/
def UpperSectionStrategy.init (tpConfig slConfig : ℚ) : UpperSectionStrategy :=
  { tp_frac := if tpConfig ≠ 0 then tpConfig else 1/10
    sl_frac := if slConfig ≠ 0 then slConfig else 1/20 }

/-- `Series.max()` of pandas on an exact-rational column: `none` on an
empty series, otherwise the greatest element (a left fold of `max`). -/
def seriesMax : List ℚ → Option ℚ
  | [] => none
  | x :: xs => some (xs.foldl max x)

/-- `UpperSectionStrategy._check_single_peak(df, recent_window,
total_window)` (`src/decision.py` lines 94-160).  `-1` is modelled as
`none`; a found peak is returned as its absolute position in `df`
(the source returns the timestamp label and `analyze` converts it back
to a position with `df.index.get_loc`; with unique timestamps the two
are in bijection, and since the subset is a suffix of `df` the absolute
position is `df.length - subset.length + peak_pos`).  Python's `-0`
slicing makes `df.iloc[-mod_window:]` the whole frame when
`mod_window = 0`, and likewise `subset_df.iloc[-recent_window:]` is the
whole subset when `recent_window = 0`. -/
def UpperSectionStrategy.check_single_peak (df : List Candle)
    (recent_window total_window : ℕ) : Option ℕ :=
  let mod_window := min df.length total_window
  let subset := if mod_window = 0 then df else df.drop (df.length - mod_window)
  let subset_highs := subset.map Candle.high
  let subset_closes := subset.map Candle.close
  match seriesMax subset_highs with
  | none => none        -- empty subset: `max_indices` is empty, length ≠ 1
  | some max_val =>
    match idxsWhere (fun h => h == max_val) subset_highs with
    | [peak_pos] =>
      -- peak must be in the last `recent_window` rows of the subset
      if recent_window ≠ 0 ∧ peak_pos + recent_window < subset.length then
        none
      else
        -- EMA condition: `compute_ema_series(subset_closes, 15)` at the peak
        match (compute_ema_series subset_closes 15)[peak_pos]? with
        | some (some ema_value) =>
          if subset_highs.getD peak_pos 0 < 6/5 * ema_value then none
          else
            -- breakout condition (lines 137-147)
            let split_point : ℤ := (mod_window : ℤ) - recent_window - 1
            let earlier_highs := subset_highs.take (mod_window - recent_window - 1)
            let recent_closes :=
              subset_closes.drop (subset_closes.length - (recent_window + 1))
            if 0 < split_point ∧ 0 < earlier_highs.length ∧
                ¬ recent_closes.any (fun c => (seriesMax earlier_highs).getD 0 < c) then
              none
            else
              -- peak candle close condition (lines 148-158)
              let peak_close := subset_closes.getD peak_pos 0
              let prev_close := subset_closes.getD (peak_pos - 1) 0
              let prev_highs := subset_highs.take (peak_pos - 1)
              if 0 < peak_pos ∧ 0 < prev_highs.length ∧
                  peak_close ≤ (seriesMax prev_highs).getD 0 ∧
                  prev_close ≤ (seriesMax prev_highs).getD 0 then
                none
              else
                some (df.length - subset.length + peak_pos)
        | _ => none     -- EMA undefined at the peak (`pd.isna`)
    | _ => none         -- not exactly one maximal high

/-- The per-candle bullish test of `_check_bearish_pattern`
(`src/decision.py` lines 197-222): bullish iff the high exceeds the
previous candle's high, else iff the close exceeds the open, else iff
the high exceeds `(1+buffer)` times the open. -/
def candleBullish (buffer : ℚ) (prev curr : Candle) : Bool :=
  (prev.high < curr.high) || (curr.opn < curr.close) ||
    ((1 + buffer) * curr.opn < curr.high)

/-- The sequential scan building `statuses`: each candle is labelled
against its immediate predecessor, the first one against `prev`
(the peak candle). -/
def bullishStatuses (buffer : ℚ) (prev : Candle) : List Candle → List Bool
  | [] => []
  | c :: cs => candleBullish buffer prev c :: bullishStatuses buffer c cs

/-- `UpperSectionStrategy._check_bearish_pattern(df, window, start_idx,
buffer)` (`src/decision.py` lines 162-236), on the path reachable from
`analyze`: `start_idx` is the label of a row of `df` (the peak), modelled
here as its absolute position `pos` (so `df.index.get_loc` succeeds and
the `except`/`start_idx is None` fallbacks are dead code).
`sub = df.iloc[pos+1 : pos+1+window]`; an empty run is `"none"`;
otherwise candles are labelled by `bullishStatuses` with the peak candle
`df.iloc[pos]` as the first predecessor, and the run is classified by the
number of bearish labels. -/
def UpperSectionStrategy.check_bearish_pattern (df : List Candle)
    (window : ℕ) (pos : ℕ) (buffer : ℚ) : String :=
  let sub := (df.drop (pos + 1)).take window
  if sub.length = 0 then "none"
  else
    let statuses := bullishStatuses buffer (df.getD pos default) sub
    let n_bearish := statuses.count false
    let total_count := statuses.length
    if n_bearish = total_count then "all"
    else if n_bearish = total_count - 1 then "all_but_one"
    else "none"

/-- `UpperSectionStrategy._is_low_under_ema(df, period)`
(`src/decision.py` lines 238-257): `False` when the EMA at the last row
is undefined, else whether the last row's low is strictly below it. -/
def UpperSectionStrategy.is_low_under_ema (df : List Candle) (period : ℕ) :
    Bool :=
  let ema_series := compute_ema_series (df.map Candle.close) period
  match ema_series[df.length - 1]? with
  | some (some curr_ema) => decide ((df.getD (df.length - 1) default).low < curr_ema)
  | _ => false

/-- `UpperSectionStrategy._generate_trade_signal(df, symbol, ema_period)`
(`src/decision.py` lines 259-317).  Returns `none` iff the EMA at the
last row is undefined (`pd.isna(entry_price)`).  The fields `pattern`,
`peak_index` and `interval` are not set by this function in the source
(they are added to the dict by `analyze`); they are filled with
placeholders here and overwritten by `analyze`. -/
def UpperSectionStrategy.generate_trade_signal (self : UpperSectionStrategy)
    (df : List Candle) (symbol : String) (ema_period : ℕ) : Option Signal :=
  let ema_series := compute_ema_series (df.map Candle.close) ema_period
  match ema_series[df.length - 1]? with
  | some (some entry_price) =>
    let last := df.getD (df.length - 1) default
    let current_price := last.close
    let tp_price := entry_price * (1 + self.tp_frac)
    let sl_price := entry_price * (1 - self.sl_frac)
    let risk := entry_price - sl_price
    let reward := tp_price - entry_price
    let risk_reward := if 0 < risk then reward / risk else 0
    let peak_high := (seriesMax (df.map Candle.high)).getD 0
    let price_from_peak :=
      if 0 < peak_high then (current_price - peak_high) / peak_high * 100 else 0
    some
      { symbol := symbol
        signal := "BUY"
        decision := "YES_" ++ toString ema_period
        entry_price := round2 entry_price
        current_price := round2 current_price
        current_low := round2 last.low
        current_high := round2 last.high
        tp_price := round2 tp_price
        sl_price := round2 sl_price
        tp_frac := self.tp_frac
        sl_frac := self.sl_frac
        ema_period := ema_period
        risk_reward := round2 risk_reward
        volume := pyInt last.volume
        price_from_peak := round2 price_from_peak
        peak_high := round2 peak_high
        pattern := ""
        peak_index := 0
        interval := "" }
  | _ => none

/-- `UpperSectionStrategy.validate_signal(signal)` (`src/decision.py`
lines 319-345): reject when `risk_reward < 1.5`, when
`entry_price <= 0`, or when
`abs(current_price - entry_price) / entry_price > 0.1`. -/
def UpperSectionStrategy.validate_signal (signal : Signal) : Bool :=
  if signal.risk_reward < 3/2 then false
  else if signal.entry_price ≤ 0 then false
  else if 1/10 < |signal.current_price - signal.entry_price| / signal.entry_price
    then false
  else true

/-- `df.sort_index()` after `set_index('timestamp')`: stable ascending
sort by timestamp (insertion sort is stable, like pandas' sort). -/
def sortByTimestamp (candles : List Candle) : List Candle :=
  List.insertionSort (fun a b => a.timestamp ≤ b.timestamp) candles

/-- `UpperSectionStrategy.analyze(candles, symbol, interval)`
(`src/decision.py` lines 20-92): the full pipeline.  `not candles or
len(candles) < 35` collapses to the length test; the weekly preset is
`{recent=5, total=52, buffer=0.2}`, anything else gets the daily preset
`{recent=7, total=200, buffer=0.1}`; the bearish run is scanned with
`window=7`.  The `else: return None` of Step 3 is unreachable (the
pattern is already known not to be `"none"`) but is mirrored anyway. -/
def UpperSectionStrategy.analyze (self : UpperSectionStrategy)
    (candles : List Candle) (symbol : String) (interval : String) :
    Option Signal :=
  if candles.length < 35 then none
  else
    let df := sortByTimestamp candles
    let recent_window : ℕ := if interval = "1w" then 5 else 7
    let total_window : ℕ := if interval = "1w" then 52 else 200
    let buffer : ℚ := if interval = "1w" then 2/10 else 1/10
    match UpperSectionStrategy.check_single_peak df recent_window total_window with
    | none => none
    | some peak_idx =>
      let pattern := UpperSectionStrategy.check_bearish_pattern df 7 peak_idx buffer
      if pattern = "none" then none
      else
        let ema_period : ℕ :=
          if pattern = "all" then 15
          else if pattern = "all_but_one" then 33
          else 0
        if pattern ≠ "all" ∧ pattern ≠ "all_but_one" then none
        else if ¬ UpperSectionStrategy.is_low_under_ema df ema_period then none
        else
          match UpperSectionStrategy.generate_trade_signal self df symbol ema_period with
          | none => none
          | some signal =>
            some { signal with
                    pattern := pattern
                    peak_index := peak_idx
                    interval := interval }

/-- A 35-candle daily series that passes the whole pipeline: 30 flat
candles (open = high = low = close = 10), a unique peak at position 30
(high 90, inside the last 7 rows), then four bearish candles (no new
high, red close, no long upper wick at buffer 0.1).  The run classifies
as `"all"`, the 15-EMA stays integral (10 before the peak, then 20, 19,
18, 17, 16) and the last low 8 sits below the final EMA value 16. -/
def demoCandles : List Candle := [
  ⟨0, 10, 10, 10, 10, 0⟩,
  ⟨1, 10, 10, 10, 10, 0⟩,
  ⟨2, 10, 10, 10, 10, 0⟩,
  ⟨3, 10, 10, 10, 10, 0⟩,
  ⟨4, 10, 10, 10, 10, 0⟩,
  ⟨5, 10, 10, 10, 10, 0⟩,
  ⟨6, 10, 10, 10, 10, 0⟩,
  ⟨7, 10, 10, 10, 10, 0⟩,
  ⟨8, 10, 10, 10, 10, 0⟩,
  ⟨9, 10, 10, 10, 10, 0⟩,
  ⟨10, 10, 10, 10, 10, 0⟩,
  ⟨11, 10, 10, 10, 10, 0⟩,
  ⟨12, 10, 10, 10, 10, 0⟩,
  ⟨13, 10, 10, 10, 10, 0⟩,
  ⟨14, 10, 10, 10, 10, 0⟩,
  ⟨15, 10, 10, 10, 10, 0⟩,
  ⟨16, 10, 10, 10, 10, 0⟩,
  ⟨17, 10, 10, 10, 10, 0⟩,
  ⟨18, 10, 10, 10, 10, 0⟩,
  ⟨19, 10, 10, 10, 10, 0⟩,
  ⟨20, 10, 10, 10, 10, 0⟩,
  ⟨21, 10, 10, 10, 10, 0⟩,
  ⟨22, 10, 10, 10, 10, 0⟩,
  ⟨23, 10, 10, 10, 10, 0⟩,
  ⟨24, 10, 10, 10, 10, 0⟩,
  ⟨25, 10, 10, 10, 10, 0⟩,
  ⟨26, 10, 10, 10, 10, 0⟩,
  ⟨27, 10, 10, 10, 10, 0⟩,
  ⟨28, 10, 10, 10, 10, 0⟩,
  ⟨29, 10, 10, 10, 10, 0⟩,
  ⟨30, 10, 90, 10, 90, 0⟩,
  ⟨31, 13, 13, 9, 12, 0⟩,
  ⟨32, 12, 12, 9, 11, 0⟩,
  ⟨33, 11, 11, 9, 10, 0⟩,
  ⟨34, 10, 10, 8, 9, 0⟩]

/-- A 15-candle series with a unique peak at the last position: with
`recent_window = 9` and `total_window = 15` every test of
`_check_single_peak` passes even though `total_window < recent_window + 7`. -/
def demo15 : List Candle := [
  ⟨0, 10, 10, 10, 10, 0⟩,
  ⟨1, 10, 10, 10, 10, 0⟩,
  ⟨2, 10, 10, 10, 10, 0⟩,
  ⟨3, 10, 10, 10, 10, 0⟩,
  ⟨4, 10, 10, 10, 10, 0⟩,
  ⟨5, 10, 10, 10, 10, 0⟩,
  ⟨6, 10, 10, 10, 10, 0⟩,
  ⟨7, 10, 10, 10, 10, 0⟩,
  ⟨8, 10, 10, 10, 10, 0⟩,
  ⟨9, 10, 10, 10, 10, 0⟩,
  ⟨10, 10, 10, 10, 10, 0⟩,
  ⟨11, 10, 10, 10, 10, 0⟩,
  ⟨12, 10, 10, 10, 10, 0⟩,
  ⟨13, 10, 10, 10, 10, 0⟩,
  ⟨14, 10, 100, 10, 100, 0⟩]

/-- The signal produced by `analyze` on `demoCandles` with
`tp_ratio = sl_ratio = 0.1` (a configuration accepted by
`config.validate_config`, which only requires `0 < TP_RATIO ≤ 0.5` and
`0 < SL_RATIO ≤ 0.2`). -/
def demoSignal : Signal :=
  { symbol := ""
    signal := "BUY"
    decision := "YES_15"
    entry_price := 16
    current_price := 9
    current_low := 8
    current_high := 10
    tp_price := 88/5
    sl_price := 72/5
    tp_frac := 1/10
    sl_frac := 1/10
    ema_period := 15
    risk_reward := 1
    volume := 0
    price_from_peak := -90
    peak_high := 90
    pattern := "all"
    peak_index := 30
    interval := "1d" }

lemma emaRec_length (alpha prev : ℚ) (l : List ℚ) :
    (emaRec alpha prev l).length = l.length := by
  induction l generalizing prev with
  | nil => rfl
  | cons p ps ih => simp [emaRec, ih]

lemma idxsWhere_length (p : ℚ → Bool) (l : List ℚ) :
    (idxsWhere p l).length = l.countP p := by
  induction l with
  | nil => rfl
  | cons x xs ih =>
    by_cases h : p x <;> simp [idxsWhere, List.countP_cons, h, ih]

lemma idxsWhere_lt (p : ℚ → Bool) (l : List ℚ) :
    ∀ i ∈ idxsWhere p l, i < l.length := by
  induction l with
  | nil => simp [idxsWhere]
  | cons x xs ih =>
    intro i hi
    simp only [idxsWhere, List.mem_append] at hi
    rcases hi with hi | hi
    · rcases (by split at hi <;> simp_all : i = 0) with rfl
      simp
    · obtain ⟨j, hj, rfl⟩ := List.mem_map.mp hi
      have := ih j hj
      simp
      omega

/-- C9: for every input list of fewer than 35 candles, `analyze` returns
`None` before examining the candle contents, for every strategy state,
symbol and interval (`src/decision.py` lines 32-34). -/
theorem analyze_requires_35_candles (self : UpperSectionStrategy)
    (candles : List Candle) (symbol interval : String)
    (h : candles.length < 35) :
    self.analyze candles symbol interval = none := by
  unfold UpperSectionStrategy.analyze
  simp [h]

theorem analyze_requires_35_candles_witness :
    UpperSectionStrategy.analyze ⟨1/10, 1/20⟩ [] "AAPL" "1w" = none :=
  analyze_requires_35_candles ⟨1/10, 1/20⟩ [] "AAPL" "1w" (by decide)

/-- C10: `validate_signal` returns `False` whenever the absolute
difference between `current_price` and `entry_price` exceeds 10% of
`entry_price`, even when `risk_reward ≥ 1.5` and `entry_price > 0`
(`src/decision.py` lines 339-343). -/
theorem validate_signal_price_proximity (s : Signal)
    (hrr : 3/2 ≤ s.risk_reward) (hentry : 0 < s.entry_price)
    (hfar : s.entry_price * (1/10) < |s.current_price - s.entry_price|) :
    UpperSectionStrategy.validate_signal s = false := by
  unfold UpperSectionStrategy.validate_signal
  rw [if_neg (not_lt.mpr hrr), if_neg (not_le.mpr hentry), if_pos]
  rw [lt_div_iff₀ hentry]
  linarith [hfar]

/-- A signal that passes `validate_signal` except for the price-proximity
test. -/
def farSignal : Signal :=
  { demoSignal with risk_reward := 2, entry_price := 10, current_price := 12 }

theorem validate_signal_price_proximity_witness :
    UpperSectionStrategy.validate_signal farSignal = false :=
  validate_signal_price_proximity farSignal (by norm_num [farSignal, demoSignal])
    (by norm_num [farSignal, demoSignal]) (by norm_num [farSignal, demoSignal])

/-- C7: for every non-positive period the Moving-Average Engine raises
instead of returning a series (`compute_ema_series_run` is never `.ok`),
and for every period ≥ 1 an empty input yields an empty output
(`src/indicators.py` lines 4-20). -/
theorem ema_nonpositive_period_raises (prices : List ℚ) (period : ℤ) :
    (period ≤ 0 → (compute_ema_series_run prices period).isOk = false) ∧
    (1 ≤ period → compute_ema_series_run [] period = .ok []) := by
  constructor
  · intro h
    unfold compute_ema_series_run
    rw [if_neg (by omega : ¬ (prices.length : ℤ) < period)]
    by_cases h1 : period + 1 = 0
    · rw [if_pos h1]; rfl
    · rw [if_neg h1]
      by_cases h2 : period < -(prices.length : ℤ)
      · rw [if_pos h2]; rfl
      · rw [if_neg h2, if_pos (by omega)]
        rfl
  · intro h
    unfold compute_ema_series_run
    rw [if_pos (by simpa using h)]
    rfl

theorem ema_nonpositive_period_raises_witness :
    (compute_ema_series_run [1] (-1)).isOk = false ∧
    compute_ema_series_run [] 5 = .ok [] :=
  ⟨(ema_nonpositive_period_raises [1] (-1)).1 (by decide),
   (ema_nonpositive_period_raises [1] 5).2 (by decide)⟩


/-- Full evaluation of the pipeline on `demoCandles` with the
configuration `TP_RATIO = SL_RATIO = 0.1`. -/
lemma analyze_demoCandles :
    UpperSectionStrategy.analyze ⟨1/10, 1/10⟩ demoCandles "" "1d" =
      some demoSignal := by
  have hsort : sortByTimestamp demoCandles = demoCandles := by
    simp [sortByTimestamp, demoCandles, List.insertionSort, List.orderedInsert]
  have hpeak : UpperSectionStrategy.check_single_peak demoCandles 7 200 = some 30 := by
    norm_num [UpperSectionStrategy.check_single_peak, demoCandles, compute_ema_series,
      emaRec, idxsWhere, seriesMax, max_def, List.replicate_succ]
  have hpat : UpperSectionStrategy.check_bearish_pattern demoCandles 7 30 (1/10) = "all" := by
    norm_num [UpperSectionStrategy.check_bearish_pattern, demoCandles, bullishStatuses,
      candleBullish]
  have hlow : UpperSectionStrategy.is_low_under_ema demoCandles 15 = true := by
    norm_num [UpperSectionStrategy.is_low_under_ema, demoCandles, compute_ema_series,
      emaRec, List.replicate_succ]
  have hgen : UpperSectionStrategy.generate_trade_signal ⟨1/10, 1/10⟩ demoCandles "" 15 =
      some { demoSignal with pattern := "", peak_index := 0, interval := "" } := by
    norm_num [UpperSectionStrategy.generate_trade_signal, demoCandles, compute_ema_series,
      emaRec, List.replicate_succ, seriesMax, max_def, round2, pyRound, pyInt, demoSignal]
    rfl
  unfold UpperSectionStrategy.analyze
  rw [if_neg (by norm_num [demoCandles])]
  simp only [hsort]
  norm_num [hpeak, hpat, hlow, hgen, demoSignal,
    (show (("1d":String) = "1w") ↔ False by simp),
    (show (("all":String) = "none") ↔ False by simp),
    (show (("all":String) = "all_but_one") ↔ False by simp)]

/-- C1 counterexample: with the configuration `TP_RATIO = SL_RATIO = 0.1`
(accepted by `config.validate_config`), `analyze` returns a signal whose
`risk_reward` is `1 < 1.5`: no validation gate runs inside the pipeline
(`validate_signal` exists in `src/decision.py` but is called nowhere in
the repository — `analyze` returns `_generate_trade_signal`'s dict
directly, and `stock_signal_bot.scan_for_signals` forwards it as is). -/
theorem analyze_emits_low_risk_reward_signal :
    UpperSectionStrategy.analyze ⟨1/10, 1/10⟩ demoCandles "" "1d" =
      some demoSignal ∧ demoSignal.risk_reward < 3/2 :=
  ⟨analyze_demoCandles, by norm_num [demoSignal]⟩

/-- C1 amended: `validate_signal` itself accepts a signal only when
`risk_reward ≥ 1.5` and `entry_price > 0` (`src/decision.py` lines
329-337) — but the pipeline never invokes it, so `analyze` can surface
signals that fail these bounds (see the counterexample). -/
theorem validate_signal_gate (s : Signal)
    (h : UpperSectionStrategy.validate_signal s = true) :
    3/2 ≤ s.risk_reward ∧ 0 < s.entry_price := by
  unfold UpperSectionStrategy.validate_signal at h
  by_cases h1 : s.risk_reward < 3/2
  · rw [if_pos h1] at h; exact absurd h (by simp)
  · rw [if_neg h1] at h
    by_cases h2 : s.entry_price ≤ 0
    · rw [if_pos h2] at h; exact absurd h (by simp)
    · exact ⟨not_lt.mp h1, not_le.mp h2⟩

/-- A signal accepted by `validate_signal`. -/
def nearSignal : Signal :=
  { demoSignal with risk_reward := 2, entry_price := 10, current_price := 10 }

theorem validate_signal_gate_witness :
    3/2 ≤ nearSignal.risk_reward ∧ 0 < nearSignal.entry_price :=
  validate_signal_gate nearSignal (by norm_num [UpperSectionStrategy.validate_signal,
    nearSignal, demoSignal])

/-- Full evaluation of the Peak Detector on `demo15` with
`recent_window = 9`, `total_window = 15`. -/
lemma check_single_peak_demo15 :
    UpperSectionStrategy.check_single_peak demo15 9 15 = some 14 := by
  norm_num [UpperSectionStrategy.check_single_peak, demo15, compute_ema_series,
    emaRec, idxsWhere, seriesMax, max_def, List.replicate_succ]

/-- C6 counterexample: `_check_single_peak` contains no
insufficient-data guard of the form `total_window < recent_window + 7`:
with `recent_window = 9` and `total_window = 15 < 9 + 7` it still finds
a peak on `demo15`. -/
theorem small_total_window_still_finds_peak :
    (15 : ℕ) < 9 + 7 ∧
      UpperSectionStrategy.check_single_peak demo15 9 15 = some 14 :=
  ⟨by norm_num, check_single_peak_demo15⟩

/-- C6 amended: the detector's only unconditional insufficient-data
behaviour comes from the 15-period EMA: whenever the frame the detector
actually scans — the whole frame when `min(len(df), total_window) = 0`,
because Python's `-0` slice `df.iloc[-0:]` selects everything, otherwise
the last `min(len(df), total_window)` candles — has fewer than 15
candles, `compute_ema_series(subset_closes, 15)` is undefined everywhere
and `_check_single_peak` returns "no peak" regardless of the candle data
(`src/decision.py` lines 126-130).  In particular this holds whenever
`1 ≤ total_window < 15`.  No `recent_window + 7` bound is checked. -/
theorem short_subset_no_peak (df : List Candle) (recent_window total_window : ℕ)
    (h : (if min df.length total_window = 0 then df.length
      else min df.length total_window) < 15) :
    UpperSectionStrategy.check_single_peak df recent_window total_window = none := by
  unfold UpperSectionStrategy.check_single_peak
  dsimp only
  by_cases hmw : df.length ⊓ total_window = 0
  · -- `-0` slice: the whole frame is scanned, and it is shorter than 15
    rw [if_pos hmw] at h
    simp only [if_pos hmw]
    split
    · rfl
    next max_val hmax =>
      split
      · next peak_pos hidx =>
        split
        · rfl
        · next hrec =>
          have hmem : peak_pos ∈ idxsWhere (fun x => x == max_val)
              (df.map Candle.high) := by
            rw [hidx]; exact List.mem_singleton_self _
          have hlt := idxsWhere_lt _ _ _ hmem
          rw [List.length_map] at hlt
          have hlen : (df.map Candle.close).length < 15 := by
            rw [List.length_map]; omega
          have hema : compute_ema_series (df.map Candle.close) 15 =
              List.replicate (df.map Candle.close).length none := by
            unfold compute_ema_series
            rw [if_pos hlen]
          split
          · next ema_value heq =>
            rw [hema, List.getElem?_replicate] at heq
            rw [List.length_map] at heq
            rw [if_pos (by omega)] at heq
            exact absurd heq (by simp)
          · rfl
      · rfl
  · -- the scanned frame is the last `min(len, total_window)` candles
    rw [if_neg hmw] at h
    simp only [if_neg hmw]
    split
    · rfl
    next max_val hmax =>
      split
      · next peak_pos hidx =>
        split
        · rfl
        · next hrec =>
          have hmem : peak_pos ∈ idxsWhere (fun x => x == max_val)
              ((df.drop (df.length - min df.length total_window)).map Candle.high) := by
            rw [hidx]; exact List.mem_singleton_self _
          have hlt := idxsWhere_lt _ _ _ hmem
          rw [List.length_map, List.length_drop] at hlt
          have hlen : ((df.drop (df.length - min df.length total_window)).map
              Candle.close).length < 15 := by
            rw [List.length_map, List.length_drop]; omega
          have hema : compute_ema_series
              ((df.drop (df.length - min df.length total_window)).map Candle.close) 15 =
              List.replicate ((df.drop (df.length - min df.length total_window)).map
                Candle.close).length none := by
            unfold compute_ema_series
            rw [if_pos hlen]
          split
          · next ema_value heq =>
            rw [hema, List.getElem?_replicate] at heq
            rw [List.length_map, List.length_drop] at heq
            rw [if_pos (by omega)] at heq
            exact absurd heq (by simp)
          · rfl
      · rfl

theorem short_subset_no_peak_witness :
    (if min demo15.length 10 = 0 then demo15.length else min demo15.length 10) < 15 ∧
      UpperSectionStrategy.check_single_peak demo15 9 10 = none :=
  ⟨by norm_num [demo15],
   short_subset_no_peak demo15 9 10 (by norm_num [demo15])⟩

lemma emaRec_getElem_zero (alpha prev : ℚ) (l : List ℚ) (hl : l ≠ []) :
    (emaRec alpha prev l)[0]? = some (l.getD 0 0 * alpha + prev * (1 - alpha)) := by
  cases l with
  | nil => exact absurd rfl hl
  | cons p ps => simp [emaRec]

lemma emaRec_getElem_succ (alpha prev : ℚ) (l : List ℚ) (j : ℕ)
    (hj : j + 1 < l.length) :
    (emaRec alpha prev l)[j + 1]? =
      some (l.getD (j + 1) 0 * alpha +
        (emaRec alpha prev l).getD j 0 * (1 - alpha)) := by
  induction l generalizing prev j with
  | nil => simp at hj
  | cons p ps ih =>
    cases j with
    | zero =>
      cases ps with
      | nil => simp at hj
      | cons q qs => simp [emaRec]
    | succ k =>
      have hk : k + 1 < ps.length := by
        simp only [List.length_cons] at hj; omega
      simp only [emaRec, List.getElem?_cons_succ, List.getD_cons_succ]
      exact ih _ k hk

/-- C2: the Moving-Average Engine contract (`src/indicators.py` lines
4-20): output length equals input length; an input shorter than the
period yields an all-undefined series; otherwise indices `0..P-2` are
undefined, index `P-1` is the arithmetic mean of the first `P` prices,
and each index `i ≥ P` equals `price[i]*α + prev*(1-α)` with
`α = 2/(P+1)` and `prev` the value at index `i-1`. -/
theorem compute_ema_series_contract (prices : List ℚ) (period : ℕ)
    (hP : 1 ≤ period) :
    (compute_ema_series prices period).length = prices.length ∧
    (prices.length < period → ∀ x ∈ compute_ema_series prices period, x = none) ∧
    (period ≤ prices.length →
      (∀ i, i + 1 < period → (compute_ema_series prices period)[i]? = some none) ∧
      (compute_ema_series prices period)[period - 1]? =
        some (some ((prices.take period).sum / period)) ∧
      (∀ i, period ≤ i → i < prices.length →
        ∃ prev, (compute_ema_series prices period)[i - 1]? = some (some prev) ∧
          (compute_ema_series prices period)[i]? =
            some (some (prices.getD i 0 * (2 / (period + 1)) +
              prev * (1 - 2 / (period + 1)))))) := by
  by_cases hlen : prices.length < period
  · have hces : compute_ema_series prices period =
        List.replicate prices.length none := by
      simp only [compute_ema_series, if_pos hlen]
    refine ⟨by simp [hces], fun _ x hx => ?_, fun hge => absurd hge (by omega)⟩
    rw [hces] at hx
    exact (List.eq_of_mem_replicate hx)
  · have hges : period ≤ prices.length := not_lt.mp hlen
    set alpha : ℚ := 2 / (period + 1) with halpha
    set sma : ℚ := (prices.take period).sum / period with hsma
    set M : List ℚ := emaRec alpha sma (prices.drop period) with hM
    have hces : compute_ema_series prices period =
        List.replicate (period - 1) none ++ (some sma :: M.map some) := by
      simp only [compute_ema_series, if_neg hlen]
    have hMlen : M.length = prices.length - period := by
      rw [hM, emaRec_length, List.length_drop]
    have hrep : (List.replicate (period - 1) (none : Option ℚ)).length =
        period - 1 := List.length_replicate _ _
    refine ⟨?_, fun hx => absurd hx (by omega), fun _ => ⟨?_, ?_, ?_⟩⟩
    · rw [hces]
      simp only [List.length_append, List.length_cons, List.length_map, hrep, hMlen]
      omega
    · intro i hi
      rw [hces, List.getElem?_append_left (by omega : i < (List.replicate
        (period - 1) (none : Option ℚ)).length), List.getElem?_replicate,
        if_pos (by omega)]
    · rw [hces, List.getElem?_append_right (by omega : (List.replicate
        (period - 1) (none : Option ℚ)).length ≤ period - 1), hrep,
        Nat.sub_self, List.getElem?_cons_zero]
    · intro i hiP hilen
      have hidrop : (prices.drop period).getD (i - period) 0 = prices.getD i 0 := by
        rw [List.getD_eq_getElem?_getD, List.getD_eq_getElem?_getD,
          List.getElem?_drop]
        have harith : period + (i - period) = i := by omega
        rw [harith]
      rcases Nat.eq_or_lt_of_le hiP with rfl | hgt
      · -- i = period : `prev` is the seed SMA
        refine ⟨sma, ?_, ?_⟩
        · rw [hces, List.getElem?_append_right (by omega : (List.replicate
            (period - 1) (none : Option ℚ)).length ≤ period - 1), hrep,
            Nat.sub_self, List.getElem?_cons_zero]
        · have hne : prices.drop period ≠ [] := by
            intro hemp
            have := List.length_drop period prices
            rw [hemp] at this
            simp at this
            omega
          have h0 := emaRec_getElem_zero alpha sma (prices.drop period) hne
          rw [hces, List.getElem?_append_right (by omega : (List.replicate
            (period - 1) (none : Option ℚ)).length ≤ period), hrep]
          have : period - (period - 1) = 1 := by omega
          rw [this, List.getElem?_cons_succ, List.getElem?_map, hM, h0,
            Option.map_some']
          have : (prices.drop period).getD 0 0 = prices.getD period 0 := by
            simp
          rw [this]
      · -- i > period : `prev` is the previous recurrence value
        have hj : i - period - 1 + 1 < (prices.drop period).length := by
          rw [List.length_drop]; omega
        have hsucc := emaRec_getElem_succ alpha sma (prices.drop period)
          (i - period - 1) hj
        have hjlt : i - period - 1 < M.length := by omega
        have hMj : M[i - period - 1]? = some (M.getD (i - period - 1) 0) := by
          rw [List.getD_eq_getElem?_getD, List.getElem?_eq_getElem hjlt]
          rfl
        refine ⟨M.getD (i - period - 1) 0, ?_, ?_⟩
        · rw [hces, List.getElem?_append_right (by omega : (List.replicate
            (period - 1) (none : Option ℚ)).length ≤ i - 1), hrep]
          have : i - 1 - (period - 1) = (i - period - 1) + 1 := by omega
          rw [this, List.getElem?_cons_succ, List.getElem?_map, hMj,
            Option.map_some']
        · rw [hces, List.getElem?_append_right (by omega : (List.replicate
            (period - 1) (none : Option ℚ)).length ≤ i), hrep]
          have : i - (period - 1) = (i - period - 1) + 1 + 1 := by omega
          rw [this, List.getElem?_cons_succ, List.getElem?_map, hM, hsucc,
            Option.map_some']
          have : i - period - 1 + 1 = i - period := by omega
          rw [this, hidrop]

theorem compute_ema_series_contract_witness :
    (compute_ema_series [1, 2, 3] 2).length = 3 ∧
    (compute_ema_series [1, 2, 3] 2)[0]? = some none ∧
    (compute_ema_series [1, 2, 3] 2)[1]? = some (some (3/2)) ∧
    (compute_ema_series [1, 2, 3] 2)[2]? = some (some (5/2)) := by
  have h := compute_ema_series_contract [1, 2, 3] 2 (by norm_num)
  refine ⟨by simpa using h.1, (h.2.2 (by norm_num)).1 0 (by norm_num), ?_, ?_⟩ <;>
    norm_num [compute_ema_series, emaRec]

lemma bullishStatuses_eq_zipWith (buffer : ℚ) (prev : Candle) (l : List Candle) :
    bullishStatuses buffer prev l =
      List.zipWith (candleBullish buffer) (prev :: l) l := by
  induction l generalizing prev with
  | nil => rfl
  | cons c cs ih => simp [bullishStatuses, List.zipWith, ih]

lemma bool_count_split (l : List Bool) :
    l.count false + l.count true = l.length := by
  induction l with
  | nil => rfl
  | cons b bs ih =>
    cases b <;> simp [List.count_cons, ih] <;> omega

/-- C5: the Bearish-Run Classifier contract (`src/decision.py` lines
162-236): over the run of up to `window` candles after the peak at
`pos`, each candle is bullish iff its high exceeds its predecessor's
high (the peak candle preceding the first), else iff close > open, else
iff high > (1+buffer)·open; the result is `"all"` iff the run is
nonempty and has no bullish candle, `"all_but_one"` iff exactly one
candle is bullish, and `"none"` otherwise — including the empty run. -/
theorem bearish_run_classification (df : List Candle) (window pos : ℕ)
    (buffer : ℚ) :
    (UpperSectionStrategy.check_bearish_pattern df window pos buffer = "all" ↔
      (df.drop (pos + 1)).take window ≠ [] ∧
      (List.zipWith (candleBullish buffer)
        (df.getD pos default :: (df.drop (pos + 1)).take window)
        ((df.drop (pos + 1)).take window)).count true = 0) ∧
    (UpperSectionStrategy.check_bearish_pattern df window pos buffer = "all_but_one" ↔
      (List.zipWith (candleBullish buffer)
        (df.getD pos default :: (df.drop (pos + 1)).take window)
        ((df.drop (pos + 1)).take window)).count true = 1) ∧
    (UpperSectionStrategy.check_bearish_pattern df window pos buffer = "none" ↔
      ((df.drop (pos + 1)).take window = [] ∨
      2 ≤ (List.zipWith (candleBullish buffer)
        (df.getD pos default :: (df.drop (pos + 1)).take window)
        ((df.drop (pos + 1)).take window)).count true)) := by
  set run := (df.drop (pos + 1)).take window with hrun
  set labels := List.zipWith (candleBullish buffer) (df.getD pos default :: run) run
    with hlabels
  have hsl : bullishStatuses buffer (df.getD pos default) run = labels :=
    bullishStatuses_eq_zipWith buffer _ run
  have hll : labels.length = run.length := by
    rw [hlabels, List.length_zipWith]
    simp
  have hsplit := bool_count_split labels
  unfold UpperSectionStrategy.check_bearish_pattern
  dsimp only
  rw [← hrun, hsl]
  by_cases hempty : run.length = 0
  · have hrun0 : run = [] := List.length_eq_zero.mp hempty
    have hlab0 : labels = [] := by rw [hlabels, hrun0]; rfl
    rw [if_pos hempty]
    exact ⟨iff_of_false (by decide) (fun h => h.1 hrun0),
      iff_of_false (by decide) (fun h => by simp [hlab0] at h),
      iff_of_true rfl (Or.inl hrun0)⟩
  · have hne : run ≠ [] := fun h => hempty (by rw [h]; rfl)
    have hlen1 : 1 ≤ labels.length := by omega
    rw [if_neg hempty]
    by_cases h1 : labels.count false = labels.length
    · rw [if_pos h1]
      exact ⟨iff_of_true rfl ⟨hne, by omega⟩,
        iff_of_false (by decide) (fun h => by omega),
        iff_of_false (by decide)
          (fun h => h.elim (fun he => hne he) (fun h2 => by omega))⟩
    · rw [if_neg h1]
      by_cases h2 : labels.count false = labels.length - 1
      · rw [if_pos h2]
        exact ⟨iff_of_false (by decide) (fun h => by omega),
          iff_of_true rfl (by omega),
          iff_of_false (by decide)
            (fun h => h.elim (fun he => hne he) (fun hge => by omega))⟩
      · rw [if_neg h2]
        exact ⟨iff_of_false (by decide) (fun h => by omega),
          iff_of_false (by decide) (fun h => by omega),
          iff_of_true rfl (Or.inr (by omega))⟩

theorem bearish_run_classification_witness :
    UpperSectionStrategy.check_bearish_pattern demoCandles 7 30 (1/10) = "all" := by
  have h := bearish_run_classification demoCandles 7 30 (1/10)
  refine h.1.mpr ⟨by simp [demoCandles], ?_⟩
  norm_num [demoCandles, candleBullish, List.count_cons]

/-- How many candles of the analysis subset (the last
`min(len(df), total_window)` rows) attain the subset's maximum high. -/
def maxHighTieCount (df : List Candle) (total_window : ℕ) : ℕ :=
  let subset := df.drop (df.length - min df.length total_window)
  subset.countP (fun c => seriesMax (subset.map Candle.high) == some c.high)

lemma tie_gives_none (df : List Candle) (recent_window total_window : ℕ)
    (h : 2 ≤ maxHighTieCount df total_window) :
    UpperSectionStrategy.check_single_peak df recent_window total_window = none := by
  by_cases hmw : df.length ⊓ total_window = 0
  · -- the claim's min-based subset is empty, so a two-way tie is impossible
    exfalso
    unfold maxHighTieCount at h
    dsimp only at h
    rw [show df.length - df.length ⊓ total_window = df.length from by omega,
      List.drop_length] at h
    simp at h
  unfold UpperSectionStrategy.check_single_peak
  dsimp only
  simp only [if_neg hmw]
  split
  · rfl
  next max_val hmax =>
    split
    · next peak_pos hidx =>
      exfalso
      have hlen := idxsWhere_length (fun x => x == max_val)
        ((df.drop (df.length - min df.length total_window)).map Candle.high)
      rw [hidx, List.countP_map] at hlen
      have hcongr : List.countP
          (fun c => seriesMax ((df.drop (df.length - min df.length
            total_window)).map Candle.high) == some c.high)
          (df.drop (df.length - min df.length total_window)) =
          List.countP ((fun x => x == max_val) ∘ Candle.high)
            (df.drop (df.length - min df.length total_window)) := by
        apply List.countP_congr
        intro c _
        rw [hmax]
        simp only [Function.comp]
        rcases eq_or_ne max_val c.high with he | hne
        · rw [he]
          simp
        · simp [beq_iff_eq, hne, Ne.symm hne]
      unfold maxHighTieCount at h
      dsimp only at h
      rw [hcongr, ← hlen] at h
      simp at h
    · rfl

/-- C3: two or more candles attaining the maximum high within the
analysis subset make `_check_single_peak` return the no-peak sentinel
(`src/decision.py` lines 110-117), and consequently `analyze` returns no
signal, whatever the rest of the data looks like. -/
theorem max_high_tie_no_peak_no_signal (df : List Candle)
    (recent_window total_window : ℕ) (self : UpperSectionStrategy)
    (candles : List Candle) (symbol interval : String) :
    (2 ≤ maxHighTieCount df total_window →
      UpperSectionStrategy.check_single_peak df recent_window total_window = none) ∧
    (2 ≤ maxHighTieCount (sortByTimestamp candles)
        (if interval = "1w" then 52 else 200) →
      self.analyze candles symbol interval = none) := by
  refine ⟨fun h => tie_gives_none df recent_window total_window h, fun h => ?_⟩
  unfold UpperSectionStrategy.analyze
  dsimp only
  by_cases h35 : candles.length < 35
  · rw [if_pos h35]
  · rw [if_neg h35]
    rw [tie_gives_none (sortByTimestamp candles)
      (if interval = "1w" then 5 else 7) (if interval = "1w" then 52 else 200) h]

/-- Two candles tying at the maximum high. -/
def tiedCandles : List Candle :=
  [{ timestamp := 0, opn := 10, high := 10, low := 10, close := 10, volume := 0 },
   { timestamp := 1, opn := 10, high := 10, low := 10, close := 10, volume := 0 }]

theorem max_high_tie_no_peak_no_signal_witness :
    2 ≤ maxHighTieCount tiedCandles 200 ∧
    UpperSectionStrategy.check_single_peak tiedCandles 7 200 = none ∧
    UpperSectionStrategy.analyze ⟨1/10, 1/20⟩ tiedCandles "T" "1d" = none := by
  have htie : 2 ≤ maxHighTieCount tiedCandles 200 := by
    norm_num [maxHighTieCount, tiedCandles, seriesMax, max_def, List.countP_cons]
  have hsort : 2 ≤ maxHighTieCount (sortByTimestamp tiedCandles) 200 := by
    have : sortByTimestamp tiedCandles = tiedCandles := by
      simp [sortByTimestamp, tiedCandles, List.insertionSort, List.orderedInsert]
    rw [this]; exact htie
  have h := max_high_tie_no_peak_no_signal tiedCandles 7 200 ⟨1/10, 1/20⟩
    tiedCandles "T" "1d"
  exact ⟨htie, h.1 htie, h.2 (by simpa using hsort)⟩

lemma foldl_max_coe (a : ℚ) (l : List ℚ) :
    ((l.foldl max a : ℚ) : WithBot ℚ) = max (a : WithBot ℚ) l.maximum := by
  induction l generalizing a with
  | nil => simp
  | cons y ys ih =>
    rw [List.foldl_cons, ih, List.maximum_cons, WithBot.coe_max, max_assoc]

lemma seriesMax_eq_maximum (l : List ℚ) : seriesMax l = l.maximum := by
  cases l with
  | nil => rfl
  | cons x xs =>
    show (Option.some (xs.foldl max x) : WithBot ℚ) = (x :: xs).maximum
    rw [WithBot.some_eq_coe, foldl_max_coe, List.maximum_cons]

lemma seriesMax_of_ne_nil (l : List ℚ) (h : l ≠ []) : ∃ m, seriesMax l = some m := by
  cases l with
  | nil => exact absurd rfl h
  | cons x xs => exact ⟨xs.foldl max x, rfl⟩

/-- C8 counterexample: at `total_window = 0` Python's `-0` slice makes
`_check_single_peak` scan the whole frame while
`split_point = 0 - recent_window - 1 < 0`, so the breakout test is
skipped and a peak is accepted — yet the claim's analysis subset (the
last `min(len, total_window) = 0` candles) is empty, so no close of that
subset exceeds anything: the claimed "accepted only if" fails. -/
theorem breakout_skipped_at_zero_total_window :
    UpperSectionStrategy.check_single_peak demoCandles 7 0 = some 30 ∧
    ¬ ∃ c ∈ ((demoCandles.drop (demoCandles.length -
        min demoCandles.length 0)).map Candle.close).drop
        (((demoCandles.drop (demoCandles.length - min demoCandles.length 0)).map
          Candle.close).length - (7 + 1)),
      (((demoCandles.drop (demoCandles.length - min demoCandles.length 0)).map
        Candle.high).take (min demoCandles.length 0 - 7 - 1)).maximum <
        (c : WithBot ℚ) := by
  constructor
  · norm_num [UpperSectionStrategy.check_single_peak, demoCandles,
      compute_ema_series, emaRec, idxsWhere, seriesMax, max_def,
      List.replicate_succ]
  · norm_num [demoCandles]

/-- C8 amended: for every call with `total_window ≥ 1` (so that
`df.iloc[-mod_window:]` really is the last `min(len, total_window)`
candles), if `_check_single_peak` accepts a peak then at least one close
among the last `recent_window + 1` rows of the analysis subset strictly
exceeds the maximum high of the subset's first `L - recent_window - 1`
rows (`⊥`, i.e. -inf, when that earlier portion is empty, in which case
the condition holds trivially — mirroring the source, which skips the
test when `split_point ≤ 0`).  At `total_window = 0` the `-0` slice
scans the whole frame while the breakout test is unconditionally
skipped; see the counterexample (`src/decision.py` lines 137-147). -/
theorem peak_requires_breakout_close (df : List Candle)
    (recent_window total_window p : ℕ) (htw : 1 ≤ total_window)
    (h : UpperSectionStrategy.check_single_peak df recent_window total_window =
      some p) :
    ∃ c ∈ ((df.drop (df.length - min df.length total_window)).map
        Candle.close).drop
        (((df.drop (df.length - min df.length total_window)).map
          Candle.close).length - (recent_window + 1)),
      (((df.drop (df.length - min df.length total_window)).map
        Candle.high).take
        (min df.length total_window - recent_window - 1)).maximum <
        (c : WithBot ℚ) := by
  by_cases hmw : df.length ⊓ total_window = 0
  · -- with `total_window ≥ 1` this forces an empty frame: no peak exists
    have hnil : df = [] := List.length_eq_zero.mp (by omega)
    rw [hnil] at h
    exact absurd h (by simp [UpperSectionStrategy.check_single_peak, seriesMax])
  · unfold UpperSectionStrategy.check_single_peak at h
    dsimp only at h
    simp only [if_neg hmw] at h
    split at h
    · exact absurd h (by simp)
    next max_val hmax =>
      split at h
      · next peak_pos hidx =>
        split at h
        · exact absurd h (by simp)
        · split at h
          · next ema_value hema =>
            split at h
            · exact absurd h (by simp)
            · next hlt =>
              split at h
              · exact absurd h (by simp)
              · next hbrk =>
                have hL0 : 0 < df.length ⊓ total_window := by omega
                have hlen_highs : ((df.drop (df.length - df.length ⊓
                    total_window)).map Candle.high).length =
                    df.length ⊓ total_window := by
                  rw [List.length_map, List.length_drop]
                  omega
                have hlen_closes : ((df.drop (df.length - df.length ⊓
                    total_window)).map Candle.close).length =
                    df.length ⊓ total_window := by
                  rw [List.length_map, List.length_drop]
                  omega
                by_cases hsp : (0:ℤ) <
                    ((df.length ⊓ total_window : ℕ) : ℤ) - recent_window - 1
                · -- the earlier portion is nonempty: the source tested `any`
                  have hLrw : recent_window + 1 < df.length ⊓ total_window := by
                    omega
                  have hlen_earlier : (((df.drop (df.length - df.length ⊓
                      total_window)).map Candle.high).take
                      (df.length ⊓ total_window - recent_window - 1)).length =
                      df.length ⊓ total_window - recent_window - 1 := by
                    rw [List.length_take, hlen_highs]
                    omega
                  have hany : (((df.drop (df.length - df.length ⊓
                      total_window)).map Candle.close).drop
                      (((df.drop (df.length - df.length ⊓ total_window)).map
                        Candle.close).length - (recent_window + 1))).any
                      (fun c => decide ((seriesMax (((df.drop (df.length -
                        df.length ⊓ total_window)).map Candle.high).take
                        (df.length ⊓ total_window - recent_window - 1))).getD 0
                        < c)) = true := by
                    by_contra hne
                    exact hbrk ⟨hsp, by omega, fun hcon => hne hcon⟩
                  obtain ⟨c, hcmem, hc⟩ := List.any_eq_true.mp hany
                  obtain ⟨m, hm⟩ := seriesMax_of_ne_nil _
                    (by rw [← List.length_pos] at *; omega :
                      (((df.drop (df.length - df.length ⊓ total_window)).map
                        Candle.high).take (df.length ⊓ total_window -
                        recent_window - 1)) ≠ [])
                  refine ⟨c, hcmem, ?_⟩
                  rw [← seriesMax_eq_maximum, hm, WithBot.some_eq_coe,
                    WithBot.coe_lt_coe]
                  rw [hm] at hc
                  simpa using hc
                · -- the earlier portion is empty: its maximum is ⊥
                  have htake0 : df.length ⊓ total_window - recent_window - 1 = 0 := by
                    omega
                  have hd0 : ((df.drop (df.length - df.length ⊓
                      total_window)).map Candle.close).length -
                      (recent_window + 1) = 0 := by
                    rw [hlen_closes]
                    omega
                  rw [htake0, List.take_zero, List.maximum_nil, hd0,
                    List.drop_zero]
                  obtain ⟨c, hcmem⟩ := List.exists_mem_of_length_pos
                    (by rw [hlen_closes]; omega)
                  exact ⟨c, hcmem, WithBot.bot_lt_coe c⟩
          · exact absurd h (by simp)
      · exact absurd h (by simp)

theorem peak_requires_breakout_close_witness :
    ∃ c ∈ ((demo15.drop (demo15.length - min demo15.length 15)).map
        Candle.close).drop
        (((demo15.drop (demo15.length - min demo15.length 15)).map
          Candle.close).length - (9 + 1)),
      (((demo15.drop (demo15.length - min demo15.length 15)).map
        Candle.high).take (min demo15.length 15 - 9 - 1)).maximum <
        (c : WithBot ℚ) :=
  peak_requires_breakout_close demo15 9 15 14 (by norm_num)
    check_single_peak_demo15

lemma generate_trade_signal_some (self : UpperSectionStrategy)
    (df : List Candle) (symbol : String) (period : ℕ) (sig : Signal)
    (h : self.generate_trade_signal df symbol period = some sig) :
    ∃ e, (compute_ema_series (df.map Candle.close) period)[df.length - 1]? =
        some (some e) ∧
      sig.entry_price = round2 e ∧
      sig.tp_price = round2 (e * (1 + self.tp_frac)) ∧
      sig.sl_price = round2 (e * (1 - self.sl_frac)) ∧
      sig.ema_period = period := by
  unfold UpperSectionStrategy.generate_trade_signal at h
  dsimp only at h
  split at h
  · next e he =>
    cases Option.some.inj h
    exact ⟨e, he, rfl, rfl, rfl, rfl⟩
  · exact absurd h (by simp)

lemma is_low_under_ema_true (df : List Candle) (period : ℕ)
    (h : UpperSectionStrategy.is_low_under_ema df period = true) :
    ∃ e, (compute_ema_series (df.map Candle.close) period)[df.length - 1]? =
        some (some e) ∧ (df.getD (df.length - 1) default).low < e := by
  unfold UpperSectionStrategy.is_low_under_ema at h
  dsimp only at h
  split at h
  · next e he => exact ⟨e, he, of_decide_eq_true h⟩
  · exact absurd h (by simp)

/-- C4: the Signal Generator contract (`src/decision.py` lines 68-92,
238-317).  Whenever `analyze` produces a signal, the bearish
classification was `"all"` with EMA period 15 or `"all_but_one"` with
EMA period 33 (a `"none"` classification never reaches this point); the
EMA at the chosen period is defined at the latest index of the sorted
series, the latest candle's low is strictly below that EMA value, and
the output prices are `entry = EMA`, `tp = entry·(1+tp_ratio)`,
`sl = entry·(1-sl_ratio)`, each rounded to 2 decimals only at the
output boundary (the unrounded EMA value feeds the tp/sl products). -/
theorem signal_generation_contract (self : UpperSectionStrategy)
    (candles : List Candle) (symbol interval : String) (s : Signal)
    (h : self.analyze candles symbol interval = some s) :
    ((s.pattern = "all" ∧ s.ema_period = 15) ∨
     (s.pattern = "all_but_one" ∧ s.ema_period = 33)) ∧
    ∃ e, (compute_ema_series ((sortByTimestamp candles).map Candle.close)
        s.ema_period)[(sortByTimestamp candles).length - 1]? = some (some e) ∧
      ((sortByTimestamp candles).getD ((sortByTimestamp candles).length - 1)
        default).low < e ∧
      s.entry_price = round2 e ∧
      s.tp_price = round2 (e * (1 + self.tp_frac)) ∧
      s.sl_price = round2 (e * (1 - self.sl_frac)) := by
  unfold UpperSectionStrategy.analyze at h
  dsimp only at h
  split at h
  · exact absurd h (by simp)
  · split at h
    · exact absurd h (by simp)
    · next peak_idx hpeak =>
      set pat := UpperSectionStrategy.check_bearish_pattern
        (sortByTimestamp candles) 7 peak_idx
        (if interval = "1w" then 2/10 else 1/10) with hpatdef
      set per : ℕ := if pat = "all" then 15
        else if pat = "all_but_one" then 33 else 0 with hperdef
      split at h
      · exact absurd h (by simp)
      · next hpnone =>
        split at h
        · exact absurd h (by simp)
        · next hpok =>
          split at h
          · exact absurd h (by simp)
          · next hlow =>
            split at h
            · exact absurd h (by simp)
            · next sig hgen =>
              cases Option.some.inj h
              obtain ⟨e, hema, hentry, htp, hsl, hper⟩ :=
                generate_trade_signal_some _ _ _ _ _ hgen
              obtain ⟨e', hema', hlt⟩ := is_low_under_ema_true _ _
                (not_not.mp hlow)
              rw [hema] at hema'
              cases Option.some.inj (Option.some.inj hema')
              dsimp only
              rw [hper]
              rcases not_and_or.mp hpok with hp | hp <;> rw [not_not] at hp
              · have hper15 : per = 15 := by
                  rw [hperdef, hp]
                  simp
                exact ⟨Or.inl ⟨hp, hper15⟩, e, hema, hlt, hentry, htp, hsl⟩
              · have hper33 : per = 33 := by
                  rw [hperdef, hp]
                  simp
                exact ⟨Or.inr ⟨hp, hper33⟩, e, hema, hlt, hentry, htp, hsl⟩

theorem signal_generation_contract_witness :
    ((demoSignal.pattern = "all" ∧ demoSignal.ema_period = 15) ∨
     (demoSignal.pattern = "all_but_one" ∧ demoSignal.ema_period = 33)) ∧
    ∃ e, (compute_ema_series ((sortByTimestamp demoCandles).map Candle.close)
        demoSignal.ema_period)[(sortByTimestamp demoCandles).length - 1]? =
        some (some e) ∧
      ((sortByTimestamp demoCandles).getD
        ((sortByTimestamp demoCandles).length - 1) default).low < e ∧
      demoSignal.entry_price = round2 e ∧
      demoSignal.tp_price =
        round2 (e * (1 + (⟨1/10, 1/10⟩ : UpperSectionStrategy).tp_frac)) ∧
      demoSignal.sl_price =
        round2 (e * (1 - (⟨1/10, 1/10⟩ : UpperSectionStrategy).sl_frac)) :=
  signal_generation_contract ⟨1/10, 1/10⟩ demoCandles "" "1d" demoSignal
    analyze_demoCandles
